import Mathlib

/-!
Verification of the HILTI runtime substrate (JIT pipeline, global-state
lifecycle, and the value/strong/weak reference trio) against its
natural-language specification.

The JIT definitions below are a shallow embedding of
`src/hilti/src/compiler/clang.cc`; the global-state model embeds
`src/hilti/runtime/include/global-state.h`.  The reference-trio model is
spec-modelled because `hilti/rt/types/reference.h` itself is not among the
provided sources (only its test suite `src/hilti/src/rt/tests/reference.cc`
is); that model follows the spec's operation tables and the observable
behavior pinned down by the tests.
-/

namespace Spicy

/-! ## LLVM module model (from `clang.cc`) -/

/-- Linkage of an LLVM global value, as far as `clang.cc` distinguishes it.
`internalLinkage` is LLVM's `InternalLinkage`; `exportedLinkage` stands for
LLVM's `ExternalLinkage`; `otherLinkage` covers every remaining linkage kind,
which `adaptSymbolVisibility` leaves untouched. -/
inductive Linkage
| internalLinkage
| exportedLinkage
| otherLinkage
deriving DecidableEq, Repr

/-- A named or unnamed LLVM global value (global variable, alias, or
function). As in LLVM, `name = ""` means the value is unnamed
(`hasName()` is false and `getName()` returns the empty string);
`isDecl` is `isDeclaration()`. -/
structure GlobalValue where
  name : String
  isDecl : Bool
  linkage : Linkage
deriving DecidableEq, Repr

/-- The body of the `process_global_value` lambda in
`ClangJIT::Implementation::adaptSymbolVisibility`: declarations are skipped;
a named value whose name is in `symbolsToUniquify` is renamed to
`<name>.<moduleAddr>` (the source renders the module address with `%p`),
the old-to-new pair is emitted for the mapping, and internal linkage is
forced to external.  Everything else is left unchanged. -/
def processGlobalValue (symbolsToUniquify : List String) (moduleAddr : String)
    (v : GlobalValue) : GlobalValue × Option (String × String) :=
  if v.isDecl then (v, none)
  else if v.name ≠ "" ∧ v.name ∈ symbolsToUniquify then
    let newSymbol := v.name ++ "." ++ moduleAddr
    ({ name := newSymbol,
       isDecl := v.isDecl,
       linkage := if v.linkage = .internalLinkage then .exportedLinkage else v.linkage },
     some (v.name, newSymbol))
  else (v, none)

/-- `ClangJIT::Implementation::adaptSymbolVisibility`: applies
`processGlobalValue` to every global value of the module (the source runs the
same lambda over globals, aliases, and functions; here they form one list)
and collects the old-to-new name mapping, returned by the source as a
`std::map`, here as the association list in iteration order (names of global
values in an LLVM module are unique, so the two agree up to ordering). -/
def adaptSymbolVisibility (mod : List GlobalValue) (symbolsToUniquify : List String)
    (moduleAddr : String) : List GlobalValue × List (String × String) :=
  (mod.map (fun v => (processGlobalValue symbolsToUniquify moduleAddr v).1),
   mod.filterMap (fun v => (processGlobalValue symbolsToUniquify moduleAddr v).2))

/-- The `must_preserve` callback in `ClangJIT::Implementation::link`: a named
global value is preserved iff its name is among the uniquified symbols or
among the always-exposed symbols; an unnamed one is always preserved
(`return ! GV.hasName()`). -/
def mustPreserve (uniqueSymbols exposeSymbols : List String) (gv : GlobalValue) : Bool :=
  if gv.name ≠ "" then
    if gv.name ∈ uniqueSymbols then true
    else if gv.name ∈ exposeSymbols then true
    else false
  else true

/-- Modelled from the spec: LLVM's `InternalizePass` (external to this
repository) as invoked by `link()` — "Internalize all other named globals
that are neither in the uniquified set nor in the always-exported set";
it gives internal linkage to exactly the global values the preserve
callback rejects. -/
def internalizeModule (mod : List GlobalValue) (preserve : GlobalValue → Bool) :
    List GlobalValue :=
  mod.map fun gv => if preserve gv then gv else { gv with linkage := .internalLinkage }

/-! ## JIT pipeline state model (from `clang.cc`) -/

/-- An intermediate LLVM module as far as `link()` observes it: its global
values, and the names of the functions registered as global constructors
and destructors (what `llvm::orc::getConstructors` / `getDestructors`
report). -/
structure LLVMModule where
  globals : List GlobalValue
  ctors : List String
  dtors : List String
deriving DecidableEq, Repr

/-- The fresh `__LINKED__` module that `link()` starts from. -/
def emptyModule : LLVMModule := { globals := [], ctors := [], dtors := [] }

/-- Modelled from the spec: `llvm::Linker::linkInModule` (external to this
repository) merges a source module into the destination module. -/
def linkInModule (dst src : LLVMModule) : LLVMModule :=
  { globals := dst.globals ++ src.globals,
    ctors := dst.ctors ++ src.ctors,
    dtors := dst.dtors ++ src.dtors }

/-- A loaded shared library, as `ClangJIT` tracks it. -/
structure Library where
  path : String
deriving DecidableEq, Repr

/-- The mutable state of `ClangJIT::Implementation` that `jit()` touches:
the FIFO `module_queue`, the `shared_library` slot backing
`retrieveLibrary()`, and the `dump_code` flag. -/
structure JITState where
  moduleQueue : List LLVMModule
  sharedLibrary : Option Library
  dumpCode : Bool
deriving DecidableEq, Repr

/-- Outcomes of the external collaborators `jit()` invokes: whether
`linkInModule` succeeds on each module, whether `llvm::verifyModule`
accepts the linked module, what `compileModule` produces, whether
`Library::save` succeeds, plus the `optimize` option and the `%p`-rendered
address of the linked module used for symbol uniquification. -/
structure JitEnv where
  linkModOk : LLVMModule → Bool
  verifyOk : LLVMModule → Bool
  compileResult : LLVMModule → Option Library
  saveOk : Bool
  optimize : Bool
  moduleAddr : String

/-- Observable pipeline stages `jit()` goes through, recorded in order. -/
inductive JitEvent
| linked
| skippedEmpty
| verified
| optimized
| libraryStored
| codeSaved
deriving DecidableEq, Repr

/-- Result type of `jit()` (`Result<Nothing>` in the source). -/
inductive JitResult
| ok
| error (msg : String)
deriving DecidableEq, Repr

/-- The `while ( module_queue.size() )` loop of `link()`: pops modules off
the queue one by one and links each into the accumulator; if linking one
module fails the loop returns immediately, leaving the rest queued. -/
def linkLoop (env : JitEnv) : List LLVMModule → LLVMModule →
    Option LLVMModule × List LLVMModule
| [], acc => (some acc, [])
| m :: rest, acc =>
  if env.linkModOk m then linkLoop env rest (linkInModule acc m)
  else (none, rest)

/-- `ClangJIT::Implementation::link`: links all queued modules together,
builds the uniquify set from the synthetic `__linker__` symbol and the
names of the linked module's global constructors and destructors, renames
and re-exports those via `adaptSymbolVisibility`, internalizes everything
else via `must_preserve`, and picks one symbol of the exported union
(`util::set_union(unique_symbols, symbols_to_expose)`) as the
materialization trigger.  The source takes `*begin()` of a `std::set`; the
model takes the first element of the deduplicated union, which is likewise
an arbitrary member, and the empty string when the union is empty. -/
def link (env : JitEnv) (st : JITState) : (Option LLVMModule × String) × JITState :=
  match linkLoop env st.moduleQueue emptyModule with
  | (none, rest) => ((none, ""), { st with moduleQueue := rest })
  | (some lm, _) =>
    let symbolsToUniquify := "__linker__" :: (lm.ctors ++ lm.dtors)
    let symbolsToExpose := ["hilti_main"]
    let adapted := adaptSymbolVisibility lm.globals symbolsToUniquify env.moduleAddr
    let uniqueSymbols := adapted.2.map Prod.snd
    let globalsInt := internalizeModule adapted.1 (mustPreserve uniqueSymbols symbolsToExpose)
    let allExported := (uniqueSymbols ++ symbolsToExpose).dedup
    let linkerSymbol := allExported.head?.getD ""
    ((some { lm with globals := globalsInt }, linkerSymbol),
     { st with moduleQueue := [] })

/-- `ClangJIT::Implementation::jit`: a no-op on an empty queue; otherwise
links the queue, skips an "empty" linked module (one with an empty linker
symbol), verifies, optionally optimizes, compiles to a shared library and
stores it (a `compileModule` failure is fatal in the source; the model
reports it as an error), and with `dump_code` set additionally saves a
debug copy.  Returns the result, the new state, and the trace of completed
stages. -/
def jit (env : JitEnv) (st : JITState) : JitResult × JITState × List JitEvent :=
  if st.moduleQueue.isEmpty then (.ok, st, [])
  else
    match link env st with
    | ((none, _), st₁) => (.error "jit: linking failed", st₁, [])
    | ((some lm, sym), st₁) =>
      if sym = "" then (.ok, st₁, [.linked, .skippedEmpty])
      else if env.verifyOk lm = false then
        (.error "jit: linked module failed verification", st₁, [.linked])
      else
        match env.compileResult lm with
        | none =>
          (.error "could not create library", st₁,
           if env.optimize then [JitEvent.linked, .verified, .optimized]
           else [JitEvent.linked, .verified])
        | some lib =>
          if st₁.dumpCode then
            if env.saveOk then
              (.ok, { st₁ with sharedLibrary := some lib },
               (if env.optimize then [JitEvent.linked, .verified, .optimized]
                else [JitEvent.linked, .verified]) ++ [.libraryStored, .codeSaved])
            else
              (.error "saving failed", { st₁ with sharedLibrary := some lib },
               (if env.optimize then [JitEvent.linked, .verified, .optimized]
                else [JitEvent.linked, .verified]) ++ [.libraryStored])
          else
            (.ok, { st₁ with sharedLibrary := some lib },
             (if env.optimize then [JitEvent.linked, .verified, .optimized]
              else [JitEvent.linked, .verified]) ++ [.libraryStored])

/-- `ClangJIT::Implementation::retrieveLibrary`: the last successfully
loaded library, if any. -/
def retrieveLibrary (st : JITState) : Option Library := st.sharedLibrary

/-! ## Global-state teardown model (from `global-state.h`) -/

/-- The non-static data members of `struct GlobalState`, in their
declaration order in `global-state.h`. -/
inductive GlobalStateField
| runtimeIsInit
| disableAbortOnExceptions
| resourceUsageInit
| configuration
| debugLogger
| masterContext
| fiberCache
| hiltiModules
| shareSt
| mainCo
deriving DecidableEq, Fintype, Repr

/-- Position of each field in the declaration order of `struct GlobalState`
(0 = declared first). -/
def declIndex : GlobalStateField → Nat
| .runtimeIsInit => 0
| .disableAbortOnExceptions => 1
| .resourceUsageInit => 2
| .configuration => 3
| .debugLogger => 4
| .masterContext => 5
| .fiberCache => 6
| .hiltiModules => 7
| .shareSt => 8
| .mainCo => 9

/-- Position of each field in the destruction sequence of `~GlobalState`
(0 = destroyed first).  C++ destroys non-static data members in reverse
order of declaration. -/
def destructionIndex (f : GlobalStateField) : Nat := 9 - declIndex f

/-- `f` is destroyed strictly after `g` during teardown of `GlobalState`. -/
def destroyedAfter (f g : GlobalStateField) : Prop :=
  destructionIndex g < destructionIndex f

instance (f g : GlobalStateField) : Decidable (destroyedAfter f g) := by
  unfold destroyedAfter; infer_instance

/-! ## Reference trio model (spec-modelled)

`hilti/rt/types/reference.h` is not among the provided sources — only its
test suite `src/hilti/src/rt/tests/reference.cc` is — so the reference
trio is modelled from the spec (§3 "Reference trio", §4.4 operation
tables) and the observable behavior the tests pin down.  Runtime memory is
explicit: a heap of reference-counted cells (the `std::shared_ptr` control
blocks) plus a stack of plain slots, so that "heap-backed" and
"stack-resident" instances are distinguishable, as §4.4 requires. -/

/-- Modelled from the spec: a raw pointer (`T*`) into runtime memory —
either to a heap cell or to a stack-resident instance. -/
inductive Ptr
| heap (a : Nat)
| stack (s : Nat)
deriving DecidableEq, Repr

/-- Modelled from the spec: one heap cell: the stored value (`none` once
the cell is released) and its current count of strong owners. -/
structure Cell (T : Type) where
  val : Option T
  strongCount : Nat
deriving DecidableEq, Repr

/-- Modelled from the spec: runtime memory: heap cells (addressed by list
index; the heap only grows, a released cell stays as a dead cell) and
stack slots. -/
structure Mem (T : Type) where
  heap : List (Cell T)
  stack : List (Option T)
deriving DecidableEq, Repr

/-- The heap cell at `a` exists and still holds a value. -/
def Mem.alive (m : Mem T) (a : Nat) : Bool :=
  match m.heap[a]? with
  | some c => c.val.isSome
  | none => false

/-- Reads the value stored in heap cell `a`, if alive. -/
def Mem.readHeap (m : Mem T) (a : Nat) : Option T :=
  (m.heap[a]?).bind (·.val)

/-- Dereferences a raw pointer. -/
def Mem.readPtr (m : Mem T) : Ptr → Option T
| .heap a => m.readHeap a
| .stack s => (m.stack[s]?).bind id

/-- Allocates a fresh heap cell holding `v` with one strong owner;
returns its address. -/
def Mem.alloc (m : Mem T) (v : T) : Nat × Mem T :=
  (m.heap.length, { m with heap := m.heap ++ [{ val := some v, strongCount := 1 }] })

/-- Applies `f` to heap cell `a` if it exists. -/
def Mem.modifyCell (m : Mem T) (a : Nat) (f : Cell T → Cell T) : Mem T :=
  match m.heap[a]? with
  | some c => { m with heap := m.heap.set a (f c) }
  | none => m

/-- Adds a strong owner to heap cell `a`. -/
def Mem.incRef (m : Mem T) (a : Nat) : Mem T :=
  m.modifyCell a fun c => { c with strongCount := c.strongCount + 1 }

/-- Drops a strong owner of heap cell `a`; releasing the last owner
destroys the stored value (the cell becomes dead — "expired" for weak
observers). -/
def Mem.decRef (m : Mem T) (a : Nat) : Mem T :=
  m.modifyCell a fun c =>
    if c.strongCount ≤ 1 then { val := none, strongCount := 0 }
    else { c with strongCount := c.strongCount - 1 }

/-- Replaces the value stored in heap cell `a`, provided it is alive
(assignment through a reference dereferences first, which fails on a dead
or null referent). -/
def Mem.write (m : Mem T) (a : Nat) (v : T) : Mem T :=
  m.modifyCell a fun c =>
    if c.val.isSome then { c with val := some v } else c

/-- Modelled from the spec: the error kinds of the reference discipline
(§7): `NullReference` on dereferencing a null reference,
`IllegalReference` on building a strong/weak reference from a non-heap
view or calling `asSharedPtr` on such a view. -/
inductive RtError
| nullReference
| illegalReference
deriving DecidableEq, Repr

/-- Modelled from the spec: `ValueReference<T>` — either the shared-handle
variant (a `std::shared_ptr`, possibly null, co-owning heap cell `a`) or
the raw-pointer variant produced by `self()` (a non-owning view, possibly
null). -/
inductive ValueReference (T : Type)
| shared (a : Option Nat)
| view (p : Option Ptr)
deriving DecidableEq, Repr

/-- Modelled from the spec: `ValueReference<T>(T)` — owns a new heap
allocation copy-constructed from the input (the default constructor is
this at `T{}`). -/
def ValueReference.fromT (m : Mem T) (v : T) : ValueReference T × Mem T :=
  let r := m.alloc v
  (.shared (some r.1), r.2)

/-- Modelled from the spec: `ValueReference<T>::self(T*)` — a non-owning
view onto storage that lies elsewhere; a null argument yields a null
view. -/
def ValueReference.self (p : Option Ptr) : ValueReference T := .view p

/-- Modelled from the spec: `get()` — the raw pointer, which may be
null. -/
def ValueReference.get (m : Mem T) : ValueReference T → Option Ptr
| .shared (some a) => some (.heap a)
| .shared none => none
| .view p => p

/-- Modelled from the spec: `isNull()`. -/
def ValueReference.isNull (m : Mem T) (r : ValueReference T) : Bool :=
  (r.get m).isNone

/-- Modelled from the spec: `operator*` — the referent, or `NullReference`
when null. -/
def ValueReference.deref (m : Mem T) (r : ValueReference T) : Except RtError T :=
  match r.get m with
  | none => .error .nullReference
  | some p =>
    match m.readPtr p with
    | some v => .ok v
    | none => .error .nullReference

/-- Modelled from the spec: `asSharedPtr()` — the shared handle when
owning, reconstruction through the control block when the view points at a
heap-resident `Controllable`, and `IllegalReference` on a view of a
stack-resident instance ("reference to non-heap instance") or a null view
("unexpected state of value reference"), per the tests. -/
def ValueReference.asSharedPtr : ValueReference T → Except RtError (Option Nat)
| .shared a => .ok a
| .view (some (.heap a)) => .ok (some a)
| .view (some (.stack _)) => .error .illegalReference
| .view none => .error .illegalReference

/-- Modelled from the spec: the copy constructor — deep-copy semantics:
the new reference owns a fresh heap allocation holding a copy of the
referent ("the copy makes a new heap allocation"); a null reference copies
to a null reference. -/
def ValueReference.copy (m : Mem T) (r : ValueReference T) : ValueReference T × Mem T :=
  match r.get m with
  | none => (r, m)
  | some p =>
    match m.readPtr p with
    | some v => ValueReference.fromT m v
    | none => (r, m)

/-- Modelled from the spec: `StrongReference<T>` — an explicitly-owning
handle: a `std::shared_ptr` that is either null or co-owns heap cell
`addr`. -/
structure StrongReference (T : Type) where
  addr : Option Nat
deriving DecidableEq, Repr

/-- Modelled from the spec: the default (null) `StrongReference<T>`. -/
def StrongReference.mkNull (T : Type) : StrongReference T := ⟨none⟩

/-- Modelled from the spec: `StrongReference<T>(T)` — heap-allocates. -/
def StrongReference.fromT (m : Mem T) (v : T) : StrongReference T × Mem T :=
  let r := m.alloc v
  (⟨some r.1⟩, r.2)

/-- Modelled from the spec: `StrongReference<T>(ValueReference<T>)` —
shares the value reference's control block iff that reference is
heap-backed; `IllegalReference` for a view of a stack-resident instance or
a null view (via `asSharedPtr`). -/
def StrongReference.fromValue (m : Mem T) (r : ValueReference T) :
    Except RtError (StrongReference T × Mem T) :=
  match r.asSharedPtr with
  | .error e => .error e
  | .ok none => .ok (⟨none⟩, m)
  | .ok (some a) => .ok (⟨some a⟩, m.incRef a)

/-- Modelled from the spec: `StrongReference::get()` — the stored raw
pointer. -/
def StrongReference.get : StrongReference T → Option Ptr
| ⟨some a⟩ => some (.heap a)
| ⟨none⟩ => none

/-- Modelled from the spec: `StrongReference::isNull()`. -/
def StrongReference.isNull (s : StrongReference T) : Bool := s.addr.isNone

/-- Modelled from the spec: `StrongReference::reset()` — drops this
owner; releasing the last owner destroys the referent. -/
def StrongReference.reset (m : Mem T) (s : StrongReference T) :
    StrongReference T × Mem T :=
  match s.addr with
  | none => (⟨none⟩, m)
  | some a => (⟨none⟩, m.decRef a)

/-- Modelled from the spec: `StrongReference::derefAsValue()` — a
`ValueReference` sharing the same storage (no deep copy); a null value
reference when null. -/
def StrongReference.derefAsValue (m : Mem T) (s : StrongReference T) :
    ValueReference T × Mem T :=
  match s.addr with
  | none => (.shared none, m)
  | some a => (.shared (some a), m.incRef a)

/-- Modelled from the spec: `WeakReference<T>` — a non-owning observer:
`null` (never bound) or bound to heap cell `a` (live while the cell is
alive, expired once it has been released). -/
inductive WeakReference (T : Type)
| null
| bound (a : Nat)
deriving DecidableEq, Repr

/-- Modelled from the spec: the default-constructed (never bound)
`WeakReference<T>`. -/
def WeakReference.mkDefault (T : Type) : WeakReference T := .null

/-- Modelled from the spec: `WeakReference<T>(StrongReference<T>)` — binds
to the strong reference's cell; a null strong reference yields a null
(not expired) weak reference. -/
def WeakReference.fromStrong : StrongReference T → WeakReference T
| ⟨none⟩ => .null
| ⟨some a⟩ => .bound a

/-- Modelled from the spec: `WeakReference<T>(ValueReference<T>)` — binds
to a heap-backed value reference's cell; `IllegalReference` for a view of
a stack-resident instance. -/
def WeakReference.fromValue : ValueReference T → Except RtError (WeakReference T)
| .shared (some a) => .ok (.bound a)
| .shared none => .ok .null
| .view (some (.heap a)) => .ok (.bound a)
| .view (some (.stack _)) => .error .illegalReference
| .view none => .ok .null

/-- Modelled from the spec: `isExpired()` — true exactly when the weak
reference was bound and its referent has since been released; false for a
never-bound (null) weak reference, per the source's documented behavior
(§9 open questions). -/
def WeakReference.isExpired (m : Mem T) : WeakReference T → Bool
| .null => false
| .bound a => ! m.alive a

/-- Modelled from the spec: `WeakReference::isNull()` — true when never
bound and also once the referent is gone (`get()` is null in both
cases). -/
def WeakReference.isNull (m : Mem T) : WeakReference T → Bool
| .null => true
| .bound a => ! m.alive a

/-- Modelled from the spec: `WeakReference::get()` — the raw pointer, or
null in both the null and the expired case. -/
def WeakReference.get (m : Mem T) : WeakReference T → Option Ptr
| .null => none
| .bound a => if m.alive a then some (.heap a) else none

/-- Modelled from the spec: `WeakReference::derefAsValue()` — a value
reference sharing the referent while live, and a null value reference
when null or expired. -/
def WeakReference.derefAsValue (m : Mem T) (w : WeakReference T) :
    ValueReference T × Mem T :=
  match w with
  | .null => (.shared none, m)
  | .bound a => if m.alive a then (.shared (some a), m.incRef a) else (.shared none, m)

/-- The primitive heap transformations; every memory-transforming
operation of the model factors through them: `ValueReference.fromT`,
`ValueReference.copy` and `StrongReference.fromT` allocate;
`StrongReference.fromValue`, `StrongReference.derefAsValue` and
`WeakReference.derefAsValue` add an owner; `StrongReference.reset` drops
an owner; assignment through a reference writes an alive cell. -/
inductive MemOp (T : Type)
| allocOp (v : T)
| incRefOp (a : Nat)
| decRefOp (a : Nat)
| writeOp (a : Nat) (v : T)

/-- Runs a primitive heap transformation. -/
def MemOp.apply : MemOp T → Mem T → Mem T
| .allocOp v, m => (m.alloc v).2
| .incRefOp a, m => m.incRef a
| .decRefOp a, m => m.decRef a
| .writeOp a v, m => m.write a v

/-! ## Helper lemmas -/

theorem Mem.heap_length_modifyCell (m : Mem T) (a : Nat) (f : Cell T → Cell T) :
    (m.modifyCell a f).heap.length = m.heap.length := by
  unfold Mem.modifyCell
  split <;> simp

theorem Mem.alive_modifyCell_of_dead (m : Mem T) (a b : Nat) (f : Cell T → Cell T)
    (hval : ∀ c : Cell T, (f c).val.isSome = true → c.val.isSome = true)
    (hdead : m.alive a = false) : (m.modifyCell b f).alive a = false := by
  unfold Mem.modifyCell
  rcases hb : m.heap[b]? with _ | c
  · exact hdead
  · have hblt : b < m.heap.length := (List.getElem?_eq_some.mp hb).1
    unfold Mem.alive at hdead ⊢
    dsimp only
    rcases eq_or_ne b a with rfl | hne
    · have hset : (m.heap.set b (f c))[b]? = some (f c) := by
        simp [List.getElem?_set_self', hblt]
      rw [hset]
      rw [hb] at hdead
      dsimp only at hdead ⊢
      cases hfc : (f c).val.isSome
      · rfl
      · rw [hval c hfc] at hdead
        exact Bool.noConfusion hdead
    · rw [List.getElem?_set_ne hne]
      exact hdead

/-- Dead heap cells stay dead under every primitive heap transformation:
allocation only appends, adding or dropping owners never revives a cell,
and writes only target alive cells. -/
theorem memOp_preserves_dead (op : MemOp T) (m : Mem T) (a : Nat)
    (hlt : a < m.heap.length) (hdead : m.alive a = false) :
    (op.apply m).alive a = false := by
  cases op with
  | allocOp v =>
    unfold MemOp.apply Mem.alloc Mem.alive at *
    rwa [List.getElem?_append_left hlt]
  | incRefOp b =>
    exact Mem.alive_modifyCell_of_dead m a b _ (fun c h => h) hdead
  | decRefOp b =>
    refine Mem.alive_modifyCell_of_dead m a b _ (fun c h => ?_) hdead
    by_cases hc : c.strongCount ≤ 1 <;> simp [hc] at h ⊢
    · exact h
  | writeOp b v =>
    refine Mem.alive_modifyCell_of_dead m a b _ (fun c h => ?_) hdead
    by_cases hc : c.val.isSome <;> simp [hc] at h ⊢

/-! ## Claims -/

/-- Claim C2: the spec states that during teardown of the `GlobalState`
singleton the module registry (`hilti_modules`) is destroyed after every
other field — in particular after the fiber cache, the master context, the
shared stack and the main coroutine handle.  The code contradicts this
(and its own `@note Must come last in this struct`): `share_st` and
`main_co` are declared after `hilti_modules`, so under C++'s
reverse-declaration-order destruction `hilti_modules` is destroyed third,
before `fiber_cache` and `master_context` (which are destroyed after it),
and not last. -/
theorem claim_C2 :
    (¬ ∀ g : GlobalStateField, g ≠ .hiltiModules → destroyedAfter .hiltiModules g)
    ∧ destroyedAfter .fiberCache .hiltiModules
    ∧ destroyedAfter .masterContext .hiltiModules
    ∧ destroyedAfter .hiltiModules .shareSt
    ∧ destroyedAfter .hiltiModules .mainCo := by
  decide

/-- Claim C3: for every value `v` of type `T`, copying a heap-owning
`ValueReference<T>` holding `v` produces a new reference whose referent
compares equal to the original's (`*v == *v'`) while the two references
point to distinct heap storage (`v.get() != v'.get()`); the copy performs
a new heap allocation. -/
theorem claim_C3 (T : Type) (m : Mem T) (v : T) (r r' : ValueReference T)
    (m₁ m₂ : Mem T) (hmk : ValueReference.fromT m v = (r, m₁))
    (hcp : r.copy m₁ = (r', m₂)) :
    r.deref m₂ = .ok v ∧ r'.deref m₂ = .ok v ∧ r.get m₂ ≠ r'.get m₂ ∧
    m₂.heap.length = m₁.heap.length + 1 := by
  simp only [ValueReference.fromT, Mem.alloc, Prod.mk.injEq] at hmk
  obtain ⟨rfl, rfl⟩ := hmk
  simp only [ValueReference.copy, ValueReference.get, Mem.readPtr, Mem.readHeap,
    List.getElem?_concat_length, Option.some_bind, ValueReference.fromT, Mem.alloc,
    Prod.mk.injEq] at hcp
  obtain ⟨rfl, rfl⟩ := hcp
  refine ⟨?_, ?_, ?_, ?_⟩
  · simp only [ValueReference.deref, ValueReference.get, Mem.readPtr, Mem.readHeap]
    rw [List.getElem?_append_left (by simp), List.getElem?_concat_length]
    rfl
  · simp only [ValueReference.deref, ValueReference.get, Mem.readPtr, Mem.readHeap]
    rw [List.getElem?_concat_length]
    rfl
  · simp only [ValueReference.get, ne_eq, Option.some.injEq, Ptr.heap.injEq,
      List.length_append, List.length_cons, List.length_nil]
    omega
  · simp

/-- Closed witness for `claim_C3` at `T := Nat`, `m` the empty memory and
`v := 42`. -/
theorem claim_C3_witness :
    (ValueReference.shared (some 0)).deref
        (⟨[⟨some 42, 1⟩, ⟨some 42, 1⟩], []⟩ : Mem Nat) = .ok 42 ∧
    (ValueReference.shared (some 1)).deref
        (⟨[⟨some 42, 1⟩, ⟨some 42, 1⟩], []⟩ : Mem Nat) = .ok 42 ∧
    (ValueReference.shared (some 0)).get
        (⟨[⟨some 42, 1⟩, ⟨some 42, 1⟩], []⟩ : Mem Nat) ≠
      (ValueReference.shared (some 1)).get
        (⟨[⟨some 42, 1⟩, ⟨some 42, 1⟩], []⟩ : Mem Nat) ∧
    (⟨[⟨some 42, 1⟩, ⟨some 42, 1⟩], []⟩ : Mem Nat).heap.length =
      (⟨[⟨some 42, 1⟩], []⟩ : Mem Nat).heap.length + 1 :=
  claim_C3 Nat ⟨[], []⟩ 42 (.shared (some 0)) (.shared (some 1))
    ⟨[⟨some 42, 1⟩], []⟩ ⟨[⟨some 42, 1⟩, ⟨some 42, 1⟩], []⟩ rfl rfl

/-- Claim C4: for every non-heap self-view (a `ValueReference<T>` built
via `self()` from a pointer to a stack-resident instance), constructing a
`StrongReference<T>` or a `WeakReference<T>` from it fails with
`IllegalReference`, and so does `asSharedPtr()` on it. -/
theorem claim_C4 (T : Type) (m : Mem T) (s : Nat) :
    StrongReference.fromValue m (ValueReference.self (some (.stack s))) =
      .error .illegalReference
  ∧ WeakReference.fromValue (ValueReference.self (T := T) (some (.stack s))) =
      .error .illegalReference
  ∧ (ValueReference.self (T := T) (some (.stack s))).asSharedPtr =
      .error .illegalReference :=
  ⟨rfl, rfl, rfl⟩

/-- Claim C5: for every non-null `StrongReference<T>` `s`, a
`WeakReference<T>` built from `s` is live (neither expired nor null);
after `s.reset()` releases the last owner the weak reference is expired,
`get()` is null and `derefAsValue()` yields a null value reference; and no
primitive heap transformation takes an expired weak reference back to
live. -/
theorem claim_C5 (T : Type) (m : Mem T) (v : T) (s : StrongReference T) (m₁ : Mem T)
    (hmk : StrongReference.fromT m v = (s, m₁)) (w : WeakReference T)
    (hw : w = WeakReference.fromStrong s) (s' : StrongReference T) (m₂ : Mem T)
    (hrs : s.reset m₁ = (s', m₂)) :
    w.isExpired m₁ = false ∧ w.isNull m₁ = false
  ∧ w.isExpired m₂ = true ∧ w.get m₂ = none
  ∧ ((w.derefAsValue m₂).1.isNull m₂) = true
  ∧ (∀ (w₀ : WeakReference T) (m₀ : Mem T) (op : MemOp T),
      w₀.isExpired m₀ = true →
      (∀ a, w₀ = .bound a → a < m₀.heap.length) →
      w₀.isExpired (op.apply m₀) = true) := by
  simp only [StrongReference.fromT, Mem.alloc, Prod.mk.injEq] at hmk
  obtain ⟨rfl, rfl⟩ := hmk
  subst hw
  have halive : (⟨m.heap ++ [(⟨some v, 1⟩ : Cell T)], m.stack⟩ : Mem T).alive
      m.heap.length = true := by
    simp [Mem.alive, List.getElem?_concat_length]
  simp [StrongReference.reset, Mem.decRef, Mem.modifyCell,
    List.getElem?_concat_length] at hrs
  obtain ⟨rfl, rfl⟩ := hrs
  have hdead : (⟨m.heap ++ [(⟨none, 0⟩ : Cell T)], m.stack⟩ : Mem T).alive
      m.heap.length = false := by
    simp [Mem.alive, List.getElem?_concat_length]
  refine ⟨?_, ?_, ?_, ?_, ?_, ?_⟩
  · simp [WeakReference.fromStrong, WeakReference.isExpired, halive]
  · simp [WeakReference.fromStrong, WeakReference.isNull, halive]
  · simp [WeakReference.fromStrong, WeakReference.isExpired, hdead]
  · simp [WeakReference.fromStrong, WeakReference.get, hdead]
  · simp [WeakReference.fromStrong, WeakReference.derefAsValue, hdead,
      ValueReference.isNull, ValueReference.get]
  · intro w₀ m₀ op hexp hbound
    cases w₀ with
    | null => simp [WeakReference.isExpired] at hexp
    | bound a =>
      simp only [WeakReference.isExpired, Bool.not_eq_true'] at hexp ⊢
      exact memOp_preserves_dead op m₀ a (hbound a rfl) hexp

/-- Closed witness for `claim_C5` at `T := Nat`, `m` the empty memory,
`v := 42`, with the final conjunct instantiated at a concrete expired
weak reference and an allocation. -/
theorem claim_C5_witness :
    (WeakReference.bound 0).isExpired (⟨[⟨some 42, 1⟩], []⟩ : Mem Nat) = false ∧
    (WeakReference.bound 0).isExpired (⟨[⟨none, 0⟩], []⟩ : Mem Nat) = true ∧
    (WeakReference.bound 0).isExpired
      ((MemOp.allocOp 7).apply (⟨[⟨none, 0⟩], []⟩ : Mem Nat)) = true := by
  have h := claim_C5 Nat ⟨[], []⟩ 42 ⟨some 0⟩ ⟨[⟨some 42, 1⟩], []⟩ rfl
    (.bound 0) rfl ⟨none⟩ ⟨[⟨none, 0⟩], []⟩ rfl
  exact ⟨h.1, h.2.2.1, h.2.2.2.2.2 (.bound 0) ⟨[⟨none, 0⟩], []⟩ (.allocOp 7)
    h.2.2.1 (fun a ha => by cases ha; decide)⟩

/-- Claim C8: for every heap-backed `ValueReference<T>`, constructing a
`StrongReference<T>` from it shares the same underlying storage rather
than copying (`StrongReference(v).get() == v.get()`), and `derefAsValue()`
on a non-null strong reference yields a `ValueReference` sharing the same
storage, with no new heap allocation. -/
theorem claim_C8 (T : Type) (m : Mem T) (a : Nat) :
    StrongReference.fromValue m (ValueReference.shared (some a)) =
      .ok (⟨some a⟩, m.incRef a)
  ∧ (StrongReference.mk (T := T) (some a)).get =
      (ValueReference.shared (some a)).get m
  ∧ ((StrongReference.mk (T := T) (some a)).derefAsValue m).1 =
      ValueReference.shared (some a)
  ∧ (((StrongReference.mk (T := T) (some a)).derefAsValue m).1).get
        ((StrongReference.mk (T := T) (some a)).derefAsValue m).2 =
      (StrongReference.mk (T := T) (some a)).get
  ∧ (((StrongReference.mk (T := T) (some a)).derefAsValue m).2).heap.length =
      m.heap.length := by
  refine ⟨rfl, rfl, rfl, rfl, ?_⟩
  simp only [StrongReference.derefAsValue, Mem.incRef]
  exact Mem.heap_length_modifyCell m a _

/-- Claim C1: in the link-and-uniquify step, for every symbol in the
uniquify set (the names of the linked module's global constructors and
destructors plus the synthetic `__linker__`) that is a definition rather
than an extern declaration, `adaptSymbolVisibility` renames it to the
original name followed by a dot and the module's address, records the
old-to-new pair in the returned map, and changes internal linkage to
external linkage (leaving other linkage kinds unchanged); symbols not in
the uniquify set, and declarations, are not renamed. -/
theorem claim_C1 (ctors dtors : List String) (moduleAddr : String)
    (mod : List GlobalValue) (i : Nat) (gv : GlobalValue)
    (hget : mod[i]? = some gv) :
    (adaptSymbolVisibility mod ("__linker__" :: (ctors ++ dtors)) moduleAddr).1.length
      = mod.length ∧
    ∃ gv',
      (adaptSymbolVisibility mod ("__linker__" :: (ctors ++ dtors)) moduleAddr).1[i]?
        = some gv' ∧
      ((gv.isDecl = false ∧ gv.name ≠ "" ∧ gv.name ∈ ("__linker__" :: (ctors ++ dtors))) →
        gv'.name = gv.name ++ "." ++ moduleAddr ∧
        (gv.name, gv.name ++ "." ++ moduleAddr) ∈
          (adaptSymbolVisibility mod ("__linker__" :: (ctors ++ dtors)) moduleAddr).2 ∧
        gv'.isDecl = gv.isDecl ∧
        (gv.linkage = .internalLinkage → gv'.linkage = .exportedLinkage) ∧
        (gv.linkage ≠ .internalLinkage → gv'.linkage = gv.linkage)) ∧
      ((gv.isDecl = true ∨ gv.name ∉ ("__linker__" :: (ctors ++ dtors))) → gv' = gv) := by
  refine ⟨by simp [adaptSymbolVisibility], ?_⟩
  refine ⟨(processGlobalValue ("__linker__" :: (ctors ++ dtors)) moduleAddr gv).1, ?_, ?_, ?_⟩
  · simp [adaptSymbolVisibility, List.getElem?_map, hget]
  · rintro ⟨hdecl, hname, hmem⟩
    have hmemlist : gv ∈ mod := List.getElem?_mem hget
    unfold processGlobalValue
    rw [if_neg (by simp [hdecl]), if_pos ⟨hname, hmem⟩]
    refine ⟨rfl, ?_, rfl, ?_, ?_⟩
    · refine List.mem_filterMap.mpr ⟨gv, hmemlist, ?_⟩
      unfold processGlobalValue
      rw [if_neg (by simp [hdecl]), if_pos ⟨hname, hmem⟩]
    · intro hint
      simp [hint]
    · intro hint
      simp [hint]
  · intro h
    unfold processGlobalValue
    rcases h with hdecl | hnotmem
    · rw [if_pos hdecl]
    · by_cases hd : gv.isDecl = true
      · rw [if_pos hd]
      · rw [if_neg hd, if_neg (by tauto)]

/-- Closed witness for `claim_C1` on a one-element module whose single
global value is an internal-linkage definition named by the constructor
list. -/
theorem claim_C1_witness :
    (adaptSymbolVisibility [⟨"ctor1", false, .internalLinkage⟩]
        ("__linker__" :: (["ctor1"] ++ [])) "0x1").1.length
      = [(⟨"ctor1", false, .internalLinkage⟩ : GlobalValue)].length ∧
    ∃ gv',
      (adaptSymbolVisibility [⟨"ctor1", false, .internalLinkage⟩]
          ("__linker__" :: (["ctor1"] ++ [])) "0x1").1[0]? = some gv' ∧
      (((⟨"ctor1", false, .internalLinkage⟩ : GlobalValue).isDecl = false ∧
        (⟨"ctor1", false, .internalLinkage⟩ : GlobalValue).name ≠ "" ∧
        (⟨"ctor1", false, .internalLinkage⟩ : GlobalValue).name ∈
          ("__linker__" :: (["ctor1"] ++ []))) →
        gv'.name = (⟨"ctor1", false, .internalLinkage⟩ : GlobalValue).name ++ "." ++ "0x1" ∧
        ((⟨"ctor1", false, .internalLinkage⟩ : GlobalValue).name,
          (⟨"ctor1", false, .internalLinkage⟩ : GlobalValue).name ++ "." ++ "0x1") ∈
          (adaptSymbolVisibility [⟨"ctor1", false, .internalLinkage⟩]
            ("__linker__" :: (["ctor1"] ++ [])) "0x1").2 ∧
        gv'.isDecl = (⟨"ctor1", false, .internalLinkage⟩ : GlobalValue).isDecl ∧
        ((⟨"ctor1", false, .internalLinkage⟩ : GlobalValue).linkage = .internalLinkage →
          gv'.linkage = .exportedLinkage) ∧
        ((⟨"ctor1", false, .internalLinkage⟩ : GlobalValue).linkage ≠ .internalLinkage →
          gv'.linkage = (⟨"ctor1", false, .internalLinkage⟩ : GlobalValue).linkage)) ∧
      (((⟨"ctor1", false, .internalLinkage⟩ : GlobalValue).isDecl = true ∨
        (⟨"ctor1", false, .internalLinkage⟩ : GlobalValue).name ∉
          ("__linker__" :: (["ctor1"] ++ []))) →
        gv' = ⟨"ctor1", false, .internalLinkage⟩) :=
  claim_C1 ["ctor1"] [] "0x1" [⟨"ctor1", false, .internalLinkage⟩] 0
    ⟨"ctor1", false, .internalLinkage⟩ rfl

/-- Claim C7: after linking, every named global of the linked module that
is neither among the uniquified (renamed) symbols nor in the
always-exported set `{hilti_main}` is internalized by the internalize
pass with the `must_preserve` callback, while unnamed globals — and
preserved named ones — are left unchanged. -/
theorem claim_C7 (uniqueSymbols : List String) (mod : List GlobalValue) (i : Nat)
    (gv : GlobalValue) (hget : mod[i]? = some gv) :
    (internalizeModule mod (mustPreserve uniqueSymbols ["hilti_main"])).length
      = mod.length ∧
    ∃ gv',
      (internalizeModule mod (mustPreserve uniqueSymbols ["hilti_main"]))[i]? = some gv' ∧
      ((gv.name ≠ "" ∧ gv.name ∉ uniqueSymbols ∧ gv.name ≠ "hilti_main") →
        gv' = { gv with linkage := .internalLinkage }) ∧
      (gv.name = "" → gv' = gv) ∧
      ((gv.name ∈ uniqueSymbols ∨ gv.name = "hilti_main") → gv' = gv) := by
  refine ⟨by simp [internalizeModule], ?_⟩
  refine ⟨if mustPreserve uniqueSymbols ["hilti_main"] gv then gv
          else { gv with linkage := .internalLinkage }, ?_, ?_, ?_, ?_⟩
  · simp [internalizeModule, List.getElem?_map, hget]
  · rintro ⟨hname, hnmem, hnmain⟩
    have hp : mustPreserve uniqueSymbols ["hilti_main"] gv = false := by
      unfold mustPreserve
      rw [if_pos hname, if_neg hnmem, if_neg (by simp [hnmain])]
    simp [hp]
  · intro hname
    have hp : mustPreserve uniqueSymbols ["hilti_main"] gv = true := by
      unfold mustPreserve
      rw [if_neg (by simp [hname])]
    simp [hp]
  · intro h
    have hp : mustPreserve uniqueSymbols ["hilti_main"] gv = true := by
      unfold mustPreserve
      by_cases hname : gv.name ≠ ""
      · rw [if_pos hname]
        by_cases hmem : gv.name ∈ uniqueSymbols
        · rw [if_pos hmem]
        · rcases h with h₁ | h₂
          · exact absurd h₁ hmem
          · rw [if_neg hmem, if_pos (by simp [h₂])]
      · rw [if_neg hname]
    simp [hp]

/-- Closed witness for `claim_C7` on a one-element module whose single
global value is named, outside both preserved sets, and of external
linkage; it gets internalized. -/
theorem claim_C7_witness :
    (internalizeModule [⟨"foo", false, .exportedLinkage⟩]
        (mustPreserve ["bar"] ["hilti_main"])).length
      = [(⟨"foo", false, .exportedLinkage⟩ : GlobalValue)].length ∧
    ∃ gv',
      (internalizeModule [⟨"foo", false, .exportedLinkage⟩]
          (mustPreserve ["bar"] ["hilti_main"]))[0]? = some gv' ∧
      (((⟨"foo", false, .exportedLinkage⟩ : GlobalValue).name ≠ "" ∧
        (⟨"foo", false, .exportedLinkage⟩ : GlobalValue).name ∉ ["bar"] ∧
        (⟨"foo", false, .exportedLinkage⟩ : GlobalValue).name ≠ "hilti_main") →
        gv' = { (⟨"foo", false, .exportedLinkage⟩ : GlobalValue) with
                linkage := .internalLinkage }) ∧
      ((⟨"foo", false, .exportedLinkage⟩ : GlobalValue).name = "" →
        gv' = ⟨"foo", false, .exportedLinkage⟩) ∧
      (((⟨"foo", false, .exportedLinkage⟩ : GlobalValue).name ∈ ["bar"] ∨
        (⟨"foo", false, .exportedLinkage⟩ : GlobalValue).name = "hilti_main") →
        gv' = ⟨"foo", false, .exportedLinkage⟩) :=
  claim_C7 ["bar"] [⟨"foo", false, .exportedLinkage⟩] 0
    ⟨"foo", false, .exportedLinkage⟩ rfl

theorem processGlobalValue_snd (u : List String) (addr : String) (gv : GlobalValue)
    (p : String × String) (h : (processGlobalValue u addr gv).2 = some p) :
    p.2 = p.1 ++ "." ++ addr := by
  unfold processGlobalValue at h
  by_cases hd : gv.isDecl = true
  · rw [if_pos hd] at h
    exact absurd h (by simp)
  · rw [if_neg hd] at h
    by_cases hc : gv.name ≠ "" ∧ gv.name ∈ u
    · rw [if_pos hc] at h
      simp only [Option.some.injEq] at h
      rw [← h]
    · rw [if_neg hc] at h
      exact absurd h (by simp)

/-- Every name produced by the uniquification map is of the form
`<old>.<module address>` and in particular nonempty. -/
theorem uniquified_symbol_ne_empty (mod : List GlobalValue) (u : List String)
    (addr : String) (s : String)
    (hs : s ∈ (adaptSymbolVisibility mod u addr).2.map Prod.snd) : s ≠ "" := by
  obtain ⟨p, hp, hps⟩ := List.mem_map.mp hs
  obtain ⟨gv, hgv, hpg⟩ := List.mem_filterMap.mp hp
  have h2 := processGlobalValue_snd u addr gv p hpg
  rw [← hps, h2]
  intro hcontra
  have hlen := congrArg String.length hcontra
  rw [String.length_append, String.length_append] at hlen
  have hdot : ("." : String).length = 1 := rfl
  have hz : ("" : String).length = 0 := rfl
  rw [hdot, hz] at hlen
  omega

/-- The chosen element of the exported-symbol union is nonempty, because
the union always contains `hilti_main` and every uniquified name is
nonempty. -/
theorem dedup_head_ne_empty (u : List String) (hall : ∀ s ∈ u, s ≠ "") :
    ((u ++ ["hilti_main"]).dedup.head?.getD "") ≠ "" := by
  have hmem : "hilti_main" ∈ (u ++ ["hilti_main"]).dedup :=
    List.mem_dedup.mpr (by simp)
  have hne : (u ++ ["hilti_main"]).dedup ≠ [] := List.ne_nil_of_mem hmem
  rw [List.head?_eq_head hne, Option.getD_some]
  have hmemh := List.head_mem hne
  have hmem2 := List.mem_dedup.mp hmemh
  rcases List.mem_append.mp hmem2 with hu | hm
  · exact hall _ hu
  · simp only [List.mem_singleton] at hm
    rw [hm]
    decide

/-- When `link` succeeds it has emptied the whole module queue. -/
theorem link_success_queue (env : JitEnv) (st : JITState) (lm : LLVMModule)
    (sym : String) (st₁ : JITState)
    (h : link env st = ((some lm, sym), st₁)) : st₁.moduleQueue = [] := by
  unfold link at h
  rcases hLL : linkLoop env st.moduleQueue emptyModule with ⟨olm, rest⟩
  rw [hLL] at h
  cases olm with
  | none => simp at h
  | some lm₀ =>
    simp only [Prod.mk.injEq] at h
    obtain ⟨⟨-, -⟩, h3⟩ := h
    rw [← h3]

/-- When `link` succeeds, the linker symbol it selects is nonempty. -/
theorem link_symbol_of_success (env : JitEnv) (st : JITState) (lm : LLVMModule)
    (sym : String) (st₁ : JITState)
    (h : link env st = ((some lm, sym), st₁)) : sym ≠ "" := by
  unfold link at h
  rcases hLL : linkLoop env st.moduleQueue emptyModule with ⟨olm, rest⟩
  rw [hLL] at h
  cases olm with
  | none => simp at h
  | some lm₀ =>
    simp only [Prod.mk.injEq] at h
    obtain ⟨⟨-, h2⟩, -⟩ := h
    rw [← h2]
    exact dedup_head_ne_empty _ (fun s hs => uniquified_symbol_ne_empty _ _ _ s hs)

/-- `jit()` on an empty queue is a no-op returning ok. -/
theorem jit_empty_queue (env : JitEnv) (st : JITState) (h : st.moduleQueue = []) :
    jit env st = (.ok, st, []) := by
  unfold jit
  rw [if_pos (by simp [List.isEmpty_iff, h])]

/-- Every run of `jit()` that returns ok leaves the module queue empty. -/
theorem jit_ok_queue (env : JitEnv) (st : JITState)
    (hok : (jit env st).1 = .ok) : ((jit env st).2.1).moduleQueue = [] := by
  unfold jit at hok ⊢
  by_cases hq : st.moduleQueue.isEmpty = true
  · rw [if_pos hq] at hok ⊢
    exact List.isEmpty_iff.mp hq
  · rw [if_neg hq] at hok ⊢
    rcases hl : link env st with ⟨⟨olm, sym⟩, st₁⟩
    cases olm with
    | none =>
      rw [hl] at hok
      simp at hok
    | some lm =>
      rw [hl] at hok
      dsimp only at hok ⊢
      have hq₁ : st₁.moduleQueue = [] := link_success_queue env st lm sym st₁ hl
      by_cases hsym : sym = ""
      · rw [if_pos hsym] at hok ⊢
        exact hq₁
      · rw [if_neg hsym] at hok ⊢
        by_cases hv : env.verifyOk lm = false
        · rw [if_pos hv] at hok
          simp at hok
        · rw [if_neg hv] at hok ⊢
          cases hc : env.compileResult lm with
          | none =>
            rw [hc] at hok
            simp at hok
          | some lib =>
            rw [hc] at hok
            dsimp only at hok ⊢
            by_cases hd : st₁.dumpCode = true
            · rw [if_pos hd] at hok ⊢
              by_cases hs : env.saveOk = true
              · rw [if_pos hs] at hok ⊢
                exact hq₁
              · rw [if_neg hs] at hok
                simp at hok
            · rw [if_neg hd] at hok ⊢
              exact hq₁

/-- Claim C6: calling `jit()` with an empty pending queue is an idempotent
no-op that returns ok, performs no pipeline stage, and leaves the
retrievable library unchanged; any `jit()` call that returns ok leaves the
queue empty, so a second `jit()` after a successful one is such a no-op
and in particular does not re-load the prior library. -/
theorem claim_C6 (env envB : JitEnv) (st : JITState) :
    (st.moduleQueue = [] → jit env st = (.ok, st, [])) ∧
    ((jit env st).1 = .ok → ((jit env st).2.1).moduleQueue = []) ∧
    ((jit env st).1 = .ok →
      jit envB (jit env st).2.1 = (.ok, (jit env st).2.1, []) ∧
      retrieveLibrary (jit envB (jit env st).2.1).2.1 =
        retrieveLibrary (jit env st).2.1) := by
  refine ⟨fun h => jit_empty_queue env st h, fun hok => jit_ok_queue env st hok,
    fun hok => ?_⟩
  have h2 := jit_ok_queue env st hok
  have h3 := jit_empty_queue envB (jit env st).2.1 h2
  exact ⟨h3, by rw [h3]⟩

/-- Closed witness for `claim_C6`: a concrete environment and a state with
an empty queue, on which `jit` is the identity no-op. -/
theorem claim_C6_witness :
    (⟨[], none, false⟩ : JITState).moduleQueue = [] ∧
    jit ⟨fun _ => true, fun _ => true, fun _ => some ⟨"lib"⟩, true, false, "0x1"⟩
        ⟨[], none, false⟩ =
      (.ok, ⟨[], none, false⟩, []) :=
  ⟨rfl,
   (claim_C6 ⟨fun _ => true, fun _ => true, fun _ => some ⟨"lib"⟩, true, false, "0x1"⟩
     ⟨fun _ => true, fun _ => true, fun _ => some ⟨"lib"⟩, true, false, "0x1"⟩
     ⟨[], none, false⟩).1 rfl⟩

/-- Claim C10: whenever `jit()` runs on a non-empty queue and linking
succeeds, the linker symbol selected by `link()` is nonempty — the
exported union always contains `hilti_main` — so the branch of `jit()`
that skips an "empty linked module" is never taken. -/
theorem claim_C10 (env : JitEnv) (st : JITState) (lm : LLVMModule) (sym : String)
    (st₁ : JITState) (hq : st.moduleQueue ≠ [])
    (hl : link env st = ((some lm, sym), st₁)) :
    sym ≠ "" ∧ JitEvent.skippedEmpty ∉ (jit env st).2.2 := by
  have hsym : sym ≠ "" := link_symbol_of_success env st lm sym st₁ hl
  refine ⟨hsym, ?_⟩
  unfold jit
  rw [if_neg (by simp [List.isEmpty_iff, hq])]
  rw [hl]
  dsimp only
  rw [if_neg hsym]
  by_cases hv : env.verifyOk lm = false
  · rw [if_pos hv]
    simp
  · rw [if_neg hv]
    cases hc : env.compileResult lm with
    | none =>
      dsimp only
      by_cases ho : env.optimize = true <;> simp [ho]
    | some lib =>
      dsimp only
      by_cases hd : st₁.dumpCode = true
      · rw [if_pos hd]
        by_cases hs : env.saveOk = true
        · rw [if_pos hs]
          by_cases ho : env.optimize = true <;> simp [ho]
        · rw [if_neg hs]
          by_cases ho : env.optimize = true <;> simp [ho]
      · rw [if_neg hd]
        by_cases ho : env.optimize = true <;> simp [ho]

/-- Closed witness for `claim_C10`: one queued (empty) module, every
external step succeeding; the selected linker symbol is `hilti_main` and
the skip branch is not taken. -/
theorem claim_C10_witness :
    ("hilti_main" : String) ≠ "" ∧
    JitEvent.skippedEmpty ∉
      (jit ⟨fun _ => true, fun _ => true, fun _ => some ⟨"lib"⟩, true, false, "0x1"⟩
        ⟨[emptyModule], none, false⟩).2.2 :=
  claim_C10 ⟨fun _ => true, fun _ => true, fun _ => some ⟨"lib"⟩, true, false, "0x1"⟩
    ⟨[emptyModule], none, false⟩ emptyModule "hilti_main" ⟨[], none, false⟩
    (by decide) (by decide)

/-- Claim C9: a default-constructed (never bound) `WeakReference<T>`
reports `isExpired() == false` and `isNull() == true`; a weak reference
constructed from a null `StrongReference` is likewise null but not
expired. -/
theorem claim_C9 (T : Type) (m : Mem T) :
    (WeakReference.mkDefault T).isNull m = true
  ∧ (WeakReference.mkDefault T).isExpired m = false
  ∧ WeakReference.fromStrong (StrongReference.mkNull T) = WeakReference.mkDefault T
  ∧ (WeakReference.fromStrong (StrongReference.mkNull T)).isNull m = true
  ∧ (WeakReference.fromStrong (StrongReference.mkNull T)).isExpired m = false :=
  ⟨rfl, rfl, rfl, rfl, rfl⟩

end Spicy
